import Mathlib

/-!
# Verification of the hubuum-cli command core

A shallow embedding of the hubuum-cli REPL core: the shell-style line
splitter (the `shlex` crate as used by `tokenizer.rs` and
`commandlist.rs`), the command tokenizer (`src/tokenizer.rs`), option
validation (`src/commands/mod.rs`), the descriptor generation contract of
the derive macro (`cli_command_derive/src/lib.rs`), and the command tree
with its completion engine (`src/commandlist.rs`).

Strings are modelled with Lean `String` over their character lists; byte
offsets in the Rust code are modelled as character offsets (all inputs of
interest are ASCII, where the two coincide).  The blocking HTTP GET and
local file read used for option-value substitution are modelled by an
explicit environment of oracle functions (`FetchEnv`).  Rust `HashMap` is
modelled as a key-unique association list (`mapInsert` removes any old
binding before appending); the maps are only ever queried by key, never
iterated, in the embedded code paths, so the representation order is
irrelevant.
-/

/-! ## The shell splitter (`shlex::split`)

`shlex::split` is a single left-to-right pass.  We embed it as a state
machine consuming one character per step, which is observably equivalent
to the crate's `next`/`parse_word`/`parse_double`/`parse_single` loop:
words are separated by unquoted space, tab or newline; `#` at a word
boundary starts a comment running to the end of line; single quotes are
verbatim up to the closing quote; double quotes allow the escapes
`\$ \` \" \\` and line continuation; an unquoted backslash escapes the
next character (dropping an escaped newline).  A dangling backslash or an
unterminated quote makes the whole split fail (`None`).
-/

/-- Rust `str::starts_with`, on character lists (byte and character
prefixes coincide on well-formed UTF-8). -/
def strStartsWith (s p : String) : Bool :=
  p.data.isPrefixOf s.data

/-- Rust byte slicing `s[n..]` for ASCII data, as a character drop. -/
def strDrop (s : String) (n : Nat) : String :=
  (s.data.drop n).asString

/-- Rust `str::trim_end`: remove trailing whitespace. -/
def strTrimEnd (s : String) : String :=
  (s.data.reverse.dropWhile Char.isWhitespace).reverse.asString

/-- The single-quote character (written numerically). -/
def squoteChar : Char := Char.ofNat 39

/-- The backtick character (written numerically). -/
def backtickChar : Char := Char.ofNat 96

/-- Splitter state: between words, inside a comment, inside a word,
after a bare backslash, inside single quotes, inside double quotes, or
after a backslash inside double quotes. -/
inductive SMode where
  | between
  | comment
  | word
  | wordEsc
  | single
  | double
  | doubleEsc
deriving DecidableEq, Repr

/-- Characters that separate words in `shlex` (space, tab, newline). -/
def shlexWs (c : Char) : Bool :=
  c = ' ' || c = '\t' || c = '\n'

/-- One pass of `shlex::split` over the remaining characters, carrying the
mode, the word accumulated so far and the words already emitted. -/
def shlexGo : List Char → SMode → String → List String → Option (List String)
  | [], m, acc, words =>
    match m with
    | .between => some words
    | .comment => some words
    | .word => some (words ++ [acc])
    | _ => none
  | c :: rest, m, acc, words =>
    match m with
    | .between =>
      if shlexWs c then shlexGo rest .between acc words
      else if c = '#' then shlexGo rest .comment acc words
      else if c = '"' then shlexGo rest .double "" words
      else if c = squoteChar then shlexGo rest .single "" words
      else if c = '\\' then shlexGo rest .wordEsc "" words
      else shlexGo rest .word (String.push "" c) words
    | .comment =>
      if c = '\n' then shlexGo rest .between acc words
      else shlexGo rest .comment acc words
    | .word =>
      if shlexWs c then shlexGo rest .between "" (words ++ [acc])
      else if c = '"' then shlexGo rest .double acc words
      else if c = squoteChar then shlexGo rest .single acc words
      else if c = '\\' then shlexGo rest .wordEsc acc words
      else shlexGo rest .word (acc.push c) words
    | .wordEsc =>
      if c = '\n' then shlexGo rest .word acc words
      else shlexGo rest .word (acc.push c) words
    | .single =>
      if c = squoteChar then shlexGo rest .word acc words
      else shlexGo rest .single (acc.push c) words
    | .double =>
      if c = '"' then shlexGo rest .word acc words
      else if c = '\\' then shlexGo rest .doubleEsc acc words
      else shlexGo rest .double (acc.push c) words
    | .doubleEsc =>
      if c = '$' || c = backtickChar || c = '"' || c = '\\' then
        shlexGo rest .double (acc.push c) words
      else if c = '\n' then shlexGo rest .double acc words
      else shlexGo rest .double ((acc.push '\\').push c) words

/-- `shlex::split` on a character list. -/
def shlexSplitChars (cs : List Char) : Option (List String) :=
  shlexGo cs .between "" []

/-- `shlex::split` on a string. -/
def shlexSplit (s : String) : Option (List String) :=
  shlexSplitChars s.data

/-! ## Errors (`src/errors.rs`, the variants the core paths produce) -/

/-- The error variants of `AppError` reachable from the tokenizer and
validation paths. -/
inductive AppError where
  | CommandNotFound
  | ParseError (msg : String)
  | InvalidInput
  | InvalidOption (msg : String)
  | PopulatedFlagOptions (opts : List String)
  | MissingOptions (opts : List String)
  | DuplicateOptions (opts : List String)
  | IoError (msg : String)
  | HttpError (msg : String)
deriving DecidableEq, Repr

/-! ## Option maps

`HashMap<String, String>` modelled as a key-unique association list. -/

/-- The tokenizer's option map. -/
abbrev OptMap := List (String × String)

/-- `HashMap::contains_key`. -/
def mapContains (m : OptMap) (k : String) : Bool :=
  m.any (fun p => p.1 == k)

/-- `HashMap::get`. -/
def mapLookup (m : OptMap) (k : String) : Option String :=
  (m.find? (fun p => p.1 == k)).map (·.2)

/-- `HashMap::insert`: any previous binding of the key is replaced. -/
def mapInsert (m : OptMap) (k v : String) : OptMap :=
  m.filter (fun p => !(p.1 == k)) ++ [(k, v)]

/-! ## The tokenizer (`src/tokenizer.rs`) -/

/-- Oracles for the two blocking effects used by value substitution: an
HTTP GET returning the response text, and a local file read returning the
file contents.  Errors carry the message string the Rust code would
stringify. -/
structure FetchEnv where
  httpGet : String → Except String String
  fileRead : String → Except String String

/-- The `CommandTokenizer` struct: scopes, command and the option map. -/
structure CommandTokenizer where
  scopes : List String
  command : String
  options : OptMap
deriving DecidableEq, Repr

/-- `CommandTokenizer::convert_file_and_http_values`: an option value
beginning with `http://` or `https://` is replaced by the trimmed fetched
text (`HttpError` on failure), one beginning with `file://` by the trimmed
contents of the file after the marker (`IoError` on failure), and any
other value is kept unchanged. -/
def convertFileAndHttpValues (env : FetchEnv) (value : String) :
    Except AppError String :=
  if strStartsWith value "http://" || strStartsWith value "https://" then
    match env.httpGet value with
    | .ok body => .ok (strTrimEnd body)
    | .error e => .error (.HttpError e)
  else if strStartsWith value "file://" then
    match env.fileRead (strDrop value 7) with
    | .ok body => .ok (strTrimEnd body)
    | .error e => .error (.IoError e)
  else
    .ok value

/-- `CommandTokenizer::parse_options` on one key token: `rest` is the
token iterator; a key starting with `--` or `-` consumes the next token
(or the empty string at the end of input) as its value, converts it, and
stores it under the dash-stripped key; any other token is rejected with
`InvalidInput`.  Returns the updated map (the caller advances the
iterator by one exactly when the step succeeds). -/
def parseOptionsStep (env : FetchEnv) (opts : OptMap) (key : String)
    (rest : List String) : Except AppError OptMap :=
  if strStartsWith key "--" then
    match convertFileAndHttpValues env (rest.headD "") with
    | .ok v => .ok (mapInsert opts (strDrop key 2) v)
    | .error e => .error e
  else if strStartsWith key "-" then
    match convertFileAndHttpValues env (rest.headD "") with
    | .ok v => .ok (mapInsert opts (strDrop key 1) v)
    | .error e => .error e
  else
    .error .InvalidInput

/-- The second loop of `CommandTokenizer::new`: every remaining token is
fed to `parse_options`, which consumes the following token as its value
whenever the step succeeds. -/
def optionsLoop (env : FetchEnv) (opts : OptMap) :
    List String → Except AppError OptMap
  | [] => .ok opts
  | [t] =>
    match parseOptionsStep env opts t [] with
    | .ok opts2 => .ok opts2
    | .error e => .error e
  | t :: v :: rest =>
    match parseOptionsStep env opts t (v :: rest) with
    | .ok opts2 => optionsLoop env opts2 rest
    | .error e => .error e

/-- The first loop of `CommandTokenizer::new`: while no dash-token has
been seen, the first token becomes `command` and every further token is
pushed onto `scopes`; the first dash-token fails with `InvalidInput` when
no command has been set, and otherwise starts option parsing (consuming
its value and handing the remainder to the second loop). -/
def scopeCommandLoop (env : FetchEnv) (tk : CommandTokenizer) :
    List String → Except AppError CommandTokenizer
  | [] => .ok tk
  | t :: rest =>
    if strStartsWith t "-" then
      if tk.command = "" then .error .InvalidInput
      else
        match rest with
        | [] =>
          match parseOptionsStep env tk.options t [] with
          | .ok opts2 => .ok { tk with options := opts2 }
          | .error e => .error e
        | v :: rest2 =>
          match parseOptionsStep env tk.options t (v :: rest2) with
          | .ok opts2 =>
            match optionsLoop env opts2 rest2 with
            | .ok opts3 => .ok { tk with options := opts3 }
            | .error e => .error e
          | .error e => .error e
    else if tk.command = "" then
      scopeCommandLoop env { tk with command := t } rest
    else
      scopeCommandLoop env { tk with scopes := tk.scopes ++ [t] } rest

/-- `CommandTokenizer::new`: split the line with `shlex` (failing with
`InvalidInput` when splitting fails) and run the two loops. -/
def tokenize (env : FetchEnv) (input : String) :
    Except AppError CommandTokenizer :=
  match shlexSplit input with
  | none => .error .InvalidInput
  | some tokens => scopeCommandLoop env ⟨[], "", []⟩ tokens

/-- `CommandTokenizer::get_scopes`. -/
def CommandTokenizer.getScopes (tk : CommandTokenizer) : List String :=
  tk.scopes

/-- `CommandTokenizer::get_options`. -/
def CommandTokenizer.getOptions (tk : CommandTokenizer) : OptMap :=
  tk.options

/-- `CommandTokenizer::get_command`. -/
def CommandTokenizer.getCommand (tk : CommandTokenizer) :
    Except AppError String :=
  if tk.command = "" then .error .CommandNotFound else .ok tk.command

/-! ## Option descriptors and validation (`src/commands/mod.rs`)

`CliOption` as generated by the derive macro: `short` carries its single
leading dash (for example `"-n"`) and `long` its two (`"--name"`), exactly
as `format!("-{}", ...)` / `format!("--{}", ...)` produce them.  The
`autocomplete` callback receives the current word and returns suggestion
strings; the `&CommandList` argument the Rust callback also receives is
treated as part of the callback's closure. -/
structure CliOption where
  name : String
  short : Option String
  long : Option String
  flag : Bool
  help : String
  fieldTypeHelp : String
  required : Bool
  autocomplete : Option (String → List String)

/-- `CliOption::short_without_dash`: the short alias with its dash
removed (`s[1..]`). -/
def CliOption.shortWithoutDash (o : CliOption) : Option String :=
  o.short.map (fun s => strDrop s 1)

/-- `CliOption::long_without_dashes`: the long alias with its two dashes
removed (`l[2..]`). -/
def CliOption.longWithoutDashes (o : CliOption) : Option String :=
  o.long.map (fun l => strDrop l 2)

/-- The names collected by `validate_missing_options`: every required
descriptor neither of whose dash-stripped aliases is a key of the option
map. -/
def missingList (opts : List CliOption) (m : OptMap) : List String :=
  (opts.filter (fun o =>
    o.required &&
      !(match o.shortWithoutDash with
        | some s => mapContains m s
        | none => false) &&
      !(match o.longWithoutDashes with
        | some l => mapContains m l
        | none => false))).map (·.name)

/-- The names collected by `validate_not_both_short_and_long_set`: every
descriptor with both aliases whose `short` and `long` — dashes included —
are both keys of the option map. -/
def duplicateList (opts : List CliOption) (m : OptMap) : List String :=
  (opts.filter (fun o =>
    match o.short, o.long with
    | some s, some l => mapContains m s && mapContains m l
    | _, _ => false)).map (·.name)

/-- The keys collected by `validate_flag_options`: for every flag
descriptor, each dash-stripped alias that is present in the map with a
non-empty value (a descriptor can contribute both its short and its long
key). -/
def populatedFlagList (opts : List CliOption) (m : OptMap) : List String :=
  (opts.map (fun o =>
    if o.flag then
      (match o.shortWithoutDash with
       | some s =>
         if mapContains m s && !((mapLookup m s).getD "").isEmpty then [s]
         else []
       | none => []) ++
      (match o.longWithoutDashes with
       | some l =>
         if mapContains m l && !((mapLookup m l).getD "").isEmpty then [l]
         else []
       | none => [])
    else [])).flatten

/-- `CliCommand::validate_missing_options`. -/
def validateMissingOptions (opts : List CliOption) (tk : CommandTokenizer) :
    Except AppError Unit :=
  let l := missingList opts tk.options
  if l.isEmpty then .ok () else .error (.MissingOptions l)

/-- `CliCommand::validate_not_both_short_and_long_set`. -/
def validateNotBothShortAndLongSet (opts : List CliOption)
    (tk : CommandTokenizer) : Except AppError Unit :=
  let l := duplicateList opts tk.options
  if l.isEmpty then .ok () else .error (.DuplicateOptions l)

/-- `CliCommand::validate_flag_options`. -/
def validateFlagOptions (opts : List CliOption) (tk : CommandTokenizer) :
    Except AppError Unit :=
  let l := populatedFlagList opts tk.options
  if l.isEmpty then .ok () else .error (.PopulatedFlagOptions l)

/-- `CliCommand::validate`: the duplicate-alias check, then the
missing-required check, then the flag-value check, each aborting the rest
on failure. -/
def validate (opts : List CliOption) (tk : CommandTokenizer) :
    Except AppError Unit := do
  validateNotBothShortAndLongSet opts tk
  validateMissingOptions opts tk
  validateFlagOptions opts tk

/-! ## Descriptor generation (`cli_command_derive/src/lib.rs`)

The derive macro turns each named struct field with its `#[option(...)]`
attributes into one `CliOption` and appends the implicit `help`
descriptor.  The field's declared type is represented by whether its last
path segment is `Option` plus its printed form. -/

/-- The parsed `#[option(...)]` attributes of one field (`FieldOpts`),
each `none` when the attribute is absent. -/
structure FieldOpts where
  short : Option String
  long : Option String
  help : Option String
  required : Option Bool
  flag : Option Bool
  autocomplete : Option (String → List String)

/-- One named struct field as the macro sees it: its identifier, whether
the last segment of its declared type is `Option`, the printed type, and
its attributes. -/
structure FieldDef where
  name : String
  typeIsOption : Bool
  typeStr : String
  opts : FieldOpts

/-- `stringify!(type).to_lowercase().replace(" ", "")`. -/
def typeHelpOf (typeStr : String) : String :=
  ((typeStr.data.map Char.toLower).filter (fun c => !(c == ' '))).asString

/-- The descriptor the macro generates for one field: aliases gain their
dashes, `help` defaults to empty, `flag` to `false`; `required` is
`false` for an `Option`-typed field and otherwise the explicit attribute,
defaulting to `true`. -/
def descriptorOfField (f : FieldDef) : CliOption where
  name := f.name
  short := f.opts.short.map (fun c => "-" ++ c)
  long := f.opts.long.map (fun l => "--" ++ l)
  flag := f.opts.flag.getD false
  help := f.opts.help.getD ""
  fieldTypeHelp := typeHelpOf f.typeStr
  required := if f.typeIsOption then false else f.opts.required.getD true
  autocomplete := f.opts.autocomplete

/-- The implicit `help` descriptor appended to every generated list. -/
def helpOption : CliOption where
  name := "help"
  short := some "-h"
  long := some "--help"
  flag := true
  help := "Prints help information"
  fieldTypeHelp := "bool"
  required := false
  autocomplete := none

/-- The full `options()` list the macro generates for a command type. -/
def optionsOfFields (fields : List FieldDef) : List CliOption :=
  fields.map descriptorOfField ++ [helpOption]

/-! ## The command tree and completion engine (`src/commandlist.rs`)

A command is represented by its observable surface in this core: its
descriptor list.  The tree nests scopes; both maps are `HashMap`s,
modelled as key-unique association lists. -/

/-- A leaf command, reduced to its `options()` surface. -/
structure CmdDef where
  options : List CliOption

/-- `CommandList`: leaf commands and child scopes. -/
inductive CommandListT where
  | node (commands : List (String × CmdDef))
      (scopes : List (String × CommandListT)) : CommandListT

/-- The command map of a node. -/
def CommandListT.commands : CommandListT → List (String × CmdDef)
  | .node c _ => c

/-- The scope map of a node. -/
def CommandListT.scopes : CommandListT → List (String × CommandListT)
  | .node _ s => s

/-- `CommandList::new`: an empty node. -/
def emptyCommandList : CommandListT := .node [] []

/-- `CommandList::get_command`. -/
def lookupCommand (cl : CommandListT) (name : String) : Option CmdDef :=
  (cl.commands.find? (fun p => p.1 == name)).map (·.2)

/-- `CommandList::get_scope`. -/
def lookupScope (cl : CommandListT) (name : String) : Option CommandListT :=
  (cl.scopes.find? (fun p => p.1 == name)).map (·.2)

/-- `CommandList::add_command`: insert or overwrite the leaf under the
node (the `&mut Self` it returns is the node itself). -/
def addCommand (cl : CommandListT) (name : String) (cmd : CmdDef) :
    CommandListT :=
  .node (cl.commands.filter (fun p => !(p.1 == name)) ++ [(name, cmd)])
    cl.scopes

/-- `CommandList::add_scope` as a map update: `entry(name).or_insert_with`
creates an empty child exactly when the name is absent. -/
def addScope (cl : CommandListT) (name : String) : CommandListT :=
  if (lookupScope cl name).isSome then cl
  else .node cl.commands (cl.scopes ++ [(name, emptyCommandList)])

/-- The child handle `add_scope` returns. -/
def addScopeChild (cl : CommandListT) (name : String) : CommandListT :=
  (lookupScope (addScope cl name) name).getD emptyCommandList

/-- A completion candidate (`rustyline`'s `Pair`). -/
structure Pair where
  display : String
  replacement : String
deriving DecidableEq, Repr

/-- `CommandList::get_completions`: child command names, then child scope
names, filtered to those starting with the prefix. -/
def getCompletions (cl : CommandListT) (pre : String) : List Pair :=
  (cl.commands.filter (fun p => strStartsWith p.1 pre)).map
      (fun p => ⟨p.1, p.1⟩) ++
    (cl.scopes.filter (fun p => strStartsWith p.1 pre)).map
      (fun p => ⟨p.1, p.1⟩)

/-- The word under the cursor: `line[..pos].rsplit_once(char::is_whitespace)`
gives the start offset of the word and the word itself (the whole prefix,
from offset 0, when it holds no whitespace). -/
def splitWordAt (cs : List Char) : Nat × List Char :=
  match cs.reverse.findIdx? Char.isWhitespace with
  | none => (0, cs)
  | some j => (cs.length - j, cs.drop (cs.length - j))

/-- The tree walk of `complete`: each token naming a child scope
descends; the first token naming a child command resolves it and stops;
any other token stops the walk at the current scope. -/
def walk : CommandListT → List String → CommandListT × Option CmdDef
  | cl, [] => (cl, none)
  | cl, p :: rest =>
    match lookupScope cl p with
    | some s => walk s rest
    | none =>
      match lookupCommand cl p with
      | some c => (cl, some c)
      | none => (cl, none)

/-- The `options_seen` list: for every dash-leading token, the name of
the descriptor one of whose dashed aliases equals the token. -/
def optionsSeen (optionDefs : List CliOption) (parts : List String) :
    List String :=
  (parts.filter (fun s => strStartsWith s "-")).filterMap (fun s =>
    (optionDefs.find? (fun o => o.long == some s || o.short == some s)).map
      (·.name))

/-- Find the descriptor whose long or short alias equals the token. -/
def findOptDef (optionDefs : List CliOption) (tok : String) :
    Option CliOption :=
  optionDefs.find? (fun o => o.long == some tok || o.short == some tok)

/-- The free function `suggest_options`: every not-yet-seen descriptor
one of whose aliases starts with the current word, displayed with its
type hint and help, replaced by its long alias (falling back to the short
alias, then the bare name). -/
def suggestOptions (optionDefs : List CliOption) (seen : List String)
    (lastToken : String) : List Pair :=
  (optionDefs.filter (fun o =>
    !(seen.contains o.name) &&
      ((o.long.map (fun l => strStartsWith l lastToken)).getD false ||
        (o.short.map (fun s => strStartsWith s lastToken)).getD false))).map
    (fun o =>
      let extraInfo :=
        if o.flag then o.help
        else "<" ++ o.fieldTypeHelp ++ "> " ++ o.help
      match o.long with
      | some l => ⟨l ++ " " ++ extraInfo, l⟩
      | none =>
        match o.short with
        | some s => ⟨s ++ " " ++ extraInfo, s⟩
        | none => ⟨o.name, o.name⟩)

/-- The candidate computation of `complete` once a command is resolved:
branch on the last split token (option key, value position after a key,
or other), mirroring the nested branches of the Rust source.  `word` is
the raw word under the cursor. -/
def completeWithCommand (cmd : CmdDef) (parts : List String)
    (word : String) : List Pair :=
  let optionDefs := cmd.options
  let seen := optionsSeen optionDefs parts
  match parts.getLast? with
  | none => []
  | some currentToken =>
    if strStartsWith currentToken "-" then
      match findOptDef optionDefs currentToken with
      | some optDef =>
        if !optDef.flag then
          match optDef.autocomplete with
          | some f => (f word).map (fun s => ⟨s, s⟩)
          | none => []
        else suggestOptions optionDefs seen word
      | none => suggestOptions optionDefs seen word
    else
      match (parts.reverse.drop 1).head? with
      | some prevToken =>
        if strStartsWith prevToken "-" then
          match findOptDef optionDefs prevToken with
          | some optDef =>
            if !optDef.flag then
              match optDef.autocomplete with
              | some f =>
                let suggestions := f word
                if suggestions.contains currentToken then
                  suggestOptions optionDefs seen word
                else suggestions.map (fun s => ⟨s, s⟩)
              | none => []
            else suggestOptions optionDefs seen word
          | none => []
        else suggestOptions optionDefs seen word
      | none => suggestOptions optionDefs seen word

/-- `Completer::complete` for `CommandList`: locate the word under the
cursor, split the line prefix with `shlex` (returning no candidates when
splitting fails), walk the tree, and emit either scope/command-name
candidates or the resolved command's option candidates.  Every exit path
of the Rust function returns `Ok`; the error type is kept in the result
to state that. -/
def complete (cl : CommandListT) (line : String) (pos : Nat) :
    Except AppError (Nat × List Pair) :=
  match shlexSplitChars (line.data.take pos) with
  | none => .ok ((splitWordAt (line.data.take pos)).1, [])
  | some parts =>
    match walk cl parts with
    | (currentScope, none) =>
      .ok ((splitWordAt (line.data.take pos)).1,
        getCompletions currentScope
          (splitWordAt (line.data.take pos)).2.asString)
    | (_, some cmd) =>
      .ok ((splitWordAt (line.data.take pos)).1,
        completeWithCommand cmd parts
          (splitWordAt (line.data.take pos)).2.asString)

/-! ## Concrete fixtures used by the claim theorems -/

/-- A sample effect environment: every HTTP GET returns `"body "` and
every file read returns `"data\n"`. -/
def sampleEnv : FetchEnv :=
  ⟨fun _ => .ok "body ", fun _ => .ok "data\n"⟩

/-- A value-type descriptor `name` with aliases `-n` / `--name`,
required. -/
def nameDescriptor : CliOption :=
  ⟨"name", some "-n", some "--name", false, "Name", "string", true, none⟩

/-- A value-type descriptor `alpha` with aliases `-a` / `--alpha`,
required. -/
def alphaDescriptor : CliOption :=
  ⟨"alpha", some "-a", some "--alpha", false, "Alpha", "string", true, none⟩

/-- A command whose descriptors are `name` and `alpha`. -/
def c3Options : List CliOption := [nameDescriptor, alphaDescriptor]

/-- Tokens whose option map holds the dashed keys `-n` and `--name`
(producible by `tokenize` from the line `cmd ---n v ----name w`). -/
def c3Tokens : CommandTokenizer :=
  ⟨[], "cmd", [("-n", "v"), ("--name", "w")]⟩

/-- A command whose single descriptor is `name`. -/
def c4Options : List CliOption := [nameDescriptor]

/-- Tokens whose option map holds both dash-stripped keys of the `name`
descriptor, as `tokenize` produces them from `cmd -n x --name y`. -/
def c4Tokens : CommandTokenizer :=
  ⟨[], "cmd", [("n", "x"), ("name", "y")]⟩

/-! ## Claim theorems -/

/-- C1: on `class info --name acme` the tokenizer succeeds with
`options = {"name": "acme"}`, but it stores the FIRST token `class` as
the command and the following pre-option token `info` as a scope —
reversed from the claimed `scope_path = ["class"]`,
`command_name = "info"` — it never consults registered scope names, and
it produces no positional list.  The failing input evaluated on the
embedded code. -/
theorem tokenize_class_info_first_token_is_command :
    ∀ env : FetchEnv,
      tokenize env "class info --name acme" =
        .ok ⟨["info"], "class", [("name", "acme")]⟩ :=
  fun _ => rfl

/-- C2: a token in the option region that does not start with `-` and
does not follow an option key is NOT collected into a positional list —
`parse_options` rejects it and tokenization fails with `InvalidInput`
(`extra` below; `acme` was consumed as the value of `--name`).  The
embedded `CommandTokenizer` — like the struct in `src/tokenizer.rs` — has
no positional list at all. -/
theorem tokenize_extra_positional_is_invalid :
    ∀ env : FetchEnv,
      tokenize env "cmd --name acme extra" = .error .InvalidInput :=
  fun _ => rfl

/-- C10: a line whose first shell-split token starts with `-` fails
tokenization with `InvalidInput`: the first loop of
`CommandTokenizer::new` errors on a dash token seen while the command is
still empty. -/
theorem tokenize_leading_dash_invalid :
    ∀ (env : FetchEnv) (input t : String) (ts : List String),
      shlexSplit input = some (t :: ts) → strStartsWith t "-" = true →
      tokenize env input = .error .InvalidInput := by
  intro env input t ts hs hd
  unfold tokenize
  rw [hs]
  simp [scopeCommandLoop, hd]

/-- C10 witness: the line `-x v` has first token `-x` and tokenization
fails. -/
theorem tokenize_leading_dash_invalid_witness :
    shlexSplit "-x v" = some ["-x", "v"] ∧ strStartsWith "-x" "-" = true ∧
      tokenize sampleEnv "-x v" = .error .InvalidInput :=
  ⟨rfl, rfl, tokenize_leading_dash_invalid sampleEnv "-x v" "-x" ["v"] rfl rfl⟩

deriving instance DecidableEq for Except

/-- Helper: `validate` runs its three checks in source order —
duplicate-alias, missing-required, flag-value — and returns the first
failing check's full list. -/
theorem validate_characterization (opts : List CliOption)
    (tk : CommandTokenizer) :
    validate opts tk =
      if (duplicateList opts tk.options).isEmpty then
        if (missingList opts tk.options).isEmpty then
          if (populatedFlagList opts tk.options).isEmpty then .ok ()
          else .error (.PopulatedFlagOptions (populatedFlagList opts tk.options))
        else .error (.MissingOptions (missingList opts tk.options))
      else .error (.DuplicateOptions (duplicateList opts tk.options)) := by
  unfold validate validateNotBothShortAndLongSet validateMissingOptions
    validateFlagOptions
  by_cases h1 : (duplicateList opts tk.options).isEmpty <;>
    by_cases h2 : (missingList opts tk.options).isEmpty <;>
      by_cases h3 : (populatedFlagList opts tk.options).isEmpty <;>
        simp [h1, h2, h3, Bind.bind, Except.bind]

/-- C3 counterexample: for the command `{name, alpha}` (both required)
and the token map `{-n: v, --name: w}`, the missing-required check fails
(collecting `name` and `alpha`: neither dash-stripped alias is a key),
yet `validate` returns `DuplicateOptions ["name"]`, because the
duplicate-alias check runs FIRST in the source, not second. -/
theorem validate_runs_duplicate_check_first_counterexample :
    missingList c3Options c3Tokens.options = ["name", "alpha"] ∧
      validate c3Options c3Tokens = .error (.DuplicateOptions ["name"]) ∧
      validate c3Options c3Tokens ≠
        .error (.MissingOptions ["name", "alpha"]) :=
  ⟨rfl, rfl, by decide⟩

/-- C3 (amended): `validate` short-circuits in the fixed source order
duplicate-alias, then missing-required, then flag-value, returning the
first failing check's complete violation list: a failing duplicate check
preempts everything, the missing check reports all missing names only
when the duplicate check passed, and the flag check only when both
passed. -/
theorem validate_short_circuit_order (opts : List CliOption)
    (tk : CommandTokenizer) :
    (duplicateList opts tk.options ≠ [] →
      validate opts tk =
        .error (.DuplicateOptions (duplicateList opts tk.options))) ∧
    (duplicateList opts tk.options = [] → missingList opts tk.options ≠ [] →
      validate opts tk =
        .error (.MissingOptions (missingList opts tk.options))) ∧
    (duplicateList opts tk.options = [] → missingList opts tk.options = [] →
      populatedFlagList opts tk.options ≠ [] →
      validate opts tk =
        .error (.PopulatedFlagOptions (populatedFlagList opts tk.options))) ∧
    (duplicateList opts tk.options = [] → missingList opts tk.options = [] →
      populatedFlagList opts tk.options = [] → validate opts tk = .ok ()) := by
  rw [validate_characterization opts tk]
  refine ⟨fun h1 => ?_, fun h1 h2 => ?_, fun h1 h2 h3 => ?_,
    fun h1 h2 h3 => ?_⟩
  · simp [List.isEmpty_iff, h1]
  · simp [List.isEmpty_iff, h1, h2]
  · simp [List.isEmpty_iff, h1, h2, h3]
  · simp [List.isEmpty_iff, h1, h2, h3]

/-- C3 witness: with an empty token map for the same command, the
duplicate check passes and the missing check's full list is reported. -/
theorem validate_short_circuit_order_witness :
    validate c3Options ⟨[], "cmd", []⟩ =
      .error (.MissingOptions ["name", "alpha"]) :=
  (validate_short_circuit_order c3Options ⟨[], "cmd", []⟩).2.1 rfl (by decide)

/-- C4: with both dash-stripped keys `n` and `name` of the descriptor
`name` present in the tokenized option map (as produced from
`cmd -n x --name y`), `validate` does NOT fail with
`DuplicateOptions ["name"]` — it succeeds, because
`validate_not_both_short_and_long_set` looks the dashed aliases `-n` and
`--name` themselves up in the dash-stripped map, so its condition can
never hold on tokenizer output.  The sibling checks use the
dash-stripped forms, marking the dashed lookup as a slip. -/
theorem validate_duplicate_check_never_fires :
    ∀ env : FetchEnv,
      tokenize env "cmd -n x --name y" = .ok c4Tokens ∧
      mapContains c4Tokens.options "n" = true ∧
      mapContains c4Tokens.options "name" = true ∧
      duplicateList c4Options c4Tokens.options = [] ∧
      validate c4Options c4Tokens = .ok () :=
  fun _ => ⟨rfl, rfl, rfl, rfl, rfl⟩


/-- C5 counterexample: on the prefix `class info --name "acme` with the
cursor at offset 23 (the end), `complete` returns the pair `(18, [])` —
18 is the start of the word under the cursor — not `(23, [])` with an
offset equal to the cursor as claimed. -/
theorem complete_offset_is_word_start_counterexample :
    complete emptyCommandList "class info --name \"acme" 23 =
        .ok (18, []) ∧
      complete emptyCommandList "class info --name \"acme" 23 ≠
        .ok (23, []) := by
  refine ⟨rfl, ?_⟩
  intro h
  have h2 : ((18, []) : Nat × List Pair) = (23, []) :=
    Except.ok.inj ((rfl :
      complete emptyCommandList "class info --name \"acme" 23 =
        .ok (18, [])).symm.trans h)
  simp at h2

/-- C5 (amended): on the unterminated-quote prefix
`class info --name "acme`, `tokenize` fails with `InvalidInput` while
`complete` at cursor 23 succeeds for every tree with the empty candidate
list and the start-of-word offset 18; and in general `complete` returns
`Ok` for every tree, line and cursor position. -/
theorem tokenize_fails_complete_degrades :
    (∀ env : FetchEnv,
      tokenize env "class info --name \"acme" = .error .InvalidInput) ∧
    (∀ cl : CommandListT,
      complete cl "class info --name \"acme" 23 = .ok (18, [])) ∧
    (∀ (cl : CommandListT) (line : String) (pos : Nat),
      ∃ r, complete cl line pos = .ok r) := by
  refine ⟨fun _ => rfl, fun _ => rfl, fun cl line pos => ?_⟩
  rcases hs : shlexSplitChars (line.data.take pos) with _ | parts
  · exact ⟨((splitWordAt (line.data.take pos)).1, []), by simp [complete, hs]⟩
  · rcases hw : walk cl parts with ⟨scope, _ | cmd⟩
    · exact ⟨((splitWordAt (line.data.take pos)).1,
        getCompletions scope (splitWordAt (line.data.take pos)).2.asString), by
        simp [complete, hs, hw]⟩
    · exact ⟨((splitWordAt (line.data.take pos)).1,
        completeWithCommand cmd parts (splitWordAt (line.data.take pos)).2.asString), by
        simp [complete, hs, hw]⟩

/-- The field of C6's counterexample: an `Option`-typed field whose
attributes explicitly set `required = true`. -/
def c6Field : FieldDef :=
  ⟨"json_schema", true, "Option<serde_json::Value>",
    ⟨some "s", some "schema", none, some true, none, none⟩⟩

/-- C6 counterexample: for an `Option`-typed field with an explicit
`required = true` attribute, the generated descriptor still has
`required = false` — the macro computes `required` as `false` for every
`Option`-typed field without consulting the attribute. -/
theorem derive_option_field_ignores_required_counterexample :
    c6Field.typeIsOption = true ∧ c6Field.opts.required = some true ∧
      (descriptorOfField c6Field).required = false :=
  ⟨rfl, rfl, rfl⟩

/-- C6 (amended): an `Option`-typed field always yields
`required = false`, even when the attributes explicitly set `required`;
the explicit attribute value is used only for non-`Option` fields (which
default to `required = true` when absent). -/
theorem derive_required_rule :
    (∀ f : FieldDef, f.typeIsOption = true →
      (descriptorOfField f).required = false) ∧
    (∀ (f : FieldDef) (b : Bool), f.typeIsOption = false →
      f.opts.required = some b → (descriptorOfField f).required = b) ∧
    (∀ f : FieldDef, f.typeIsOption = false → f.opts.required = none →
      (descriptorOfField f).required = true) := by
  refine ⟨fun f h => ?_, fun f b h hr => ?_, fun f h hr => ?_⟩
  · simp [descriptorOfField, h]
  · simp [descriptorOfField, h, hr]
  · simp [descriptorOfField, h, hr]

/-- C6 witness: the amended rule applied to the concrete `Option`-typed
field with an explicit `required = true` attribute. -/
theorem derive_required_rule_witness :
    (descriptorOfField c6Field).required = false :=
  derive_required_rule.1 c6Field rfl

/-- C7: option-value substitution.  A value beginning with `http://` or
`https://` is replaced by the trimmed fetched text, failing with
`HttpError` on a fetch error; otherwise one beginning with `file://` is
replaced by the trimmed contents of the named file, failing with
`IoError` on a read error; any other value is stored unchanged.  The
last conjunct shows the substitution happens exactly once per value, at
tokenize time: the value the tokenizer stores is exactly
`convert_file_and_http_values` of the raw token, and a conversion error
is the tokenizer's error. -/
theorem option_value_substitution (env : FetchEnv) (v : String) :
    ((strStartsWith v "http://" || strStartsWith v "https://") = true →
      convertFileAndHttpValues env v =
        match env.httpGet v with
        | .ok t => .ok (strTrimEnd t)
        | .error e => .error (.HttpError e)) ∧
    ((strStartsWith v "http://" || strStartsWith v "https://") = false →
      strStartsWith v "file://" = true →
      convertFileAndHttpValues env v =
        match env.fileRead (strDrop v 7) with
        | .ok t => .ok (strTrimEnd t)
        | .error e => .error (.IoError e)) ∧
    ((strStartsWith v "http://" || strStartsWith v "https://") = false →
      strStartsWith v "file://" = false →
      convertFileAndHttpValues env v = .ok v) ∧
    (scopeCommandLoop env ⟨[], "", []⟩ ["cmd", "--name", v] =
      match convertFileAndHttpValues env v with
      | .ok w => .ok ⟨[], "cmd", [("name", w)]⟩
      | .error e => .error e) := by
  refine ⟨fun h1 => ?_, fun h1 h2 => ?_, fun h1 h2 => ?_, ?_⟩
  · simp [convertFileAndHttpValues, h1]
  · simp [convertFileAndHttpValues, h1, h2]
  · simp [convertFileAndHttpValues, h1, h2]
  · have hstep : scopeCommandLoop env ⟨[], "", []⟩ ["cmd", "--name", v] =
        match parseOptionsStep env [] "--name" [v] with
        | Except.ok opts2 => Except.ok ⟨[], "cmd", opts2⟩
        | Except.error e => Except.error e := rfl
    have hopt : parseOptionsStep env [] "--name" [v] =
        match convertFileAndHttpValues env v with
        | Except.ok w => Except.ok [("name", w)]
        | Except.error e => Except.error e := rfl
    rw [hstep, hopt]
    cases convertFileAndHttpValues env v with
    | ok w => rfl
    | error e => rfl

/-- C7 witness: a `file://`-prefixed value in the sample environment is
replaced by the trimmed file contents. -/
theorem option_value_substitution_witness :
    convertFileAndHttpValues sampleEnv "file://etc/x" = .ok "data" :=
  ((option_value_substitution sampleEnv "file://etc/x").2.1 rfl rfl).trans rfl

/-- C8: the generated `options()` list contains the implicit `help`
descriptor — name `help`, short `-h`, long `--help`, a flag, not
required — for every field list, i.e. regardless of the command's
declared fields. -/
theorem options_always_contain_help :
    ∀ fields : List FieldDef, ∃ o ∈ optionsOfFields fields,
      o.name = "help" ∧ o.short = some "-h" ∧ o.long = some "--help" ∧
      o.flag = true ∧ o.required = false := by
  intro fields
  refine ⟨helpOption, ?_, rfl, rfl, rfl, rfl, rfl⟩
  simp [optionsOfFields]

/-- Helper: appending a fresh scope entry makes it the lookup result
when the name was previously absent. -/
theorem lookupScope_append_fresh (cl : CommandListT) (n : String)
    (x : CommandListT) (h : lookupScope cl n = none) :
    lookupScope (.node cl.commands (cl.scopes ++ [(n, x)])) n = some x := by
  cases cl with
  | node cmds scopes =>
    simp only [lookupScope, CommandListT.scopes] at h ⊢
    rw [Option.map_eq_none'] at h
    rw [List.find?_append, h]
    simp [List.find?]

/-- Helper: `add_scope` on an already-registered name leaves the tree
unchanged (`entry(...).or_insert_with` inserts nothing). -/
theorem addScope_present (cl : CommandListT) (n : String)
    (h : (lookupScope cl n).isSome = true) : addScope cl n = cl := by
  simp [addScope, h]

/-- C9: registration is idempotent and overwrites.  Adding a command
twice under one name collapses to the second add, after which exactly
the one entry `(name, second)` is stored under that name; adding a scope
twice is the same as adding it once; the child handle `add_scope`
returns is the already-present child when the name was registered and a
fresh empty node otherwise; and on a present name `add_scope` leaves the
tree unchanged. -/
theorem registration_overwrites_and_is_idempotent
    (cl : CommandListT) (n : String) (c1 c2 : CmdDef) :
    addCommand (addCommand cl n c1) n c2 = addCommand cl n c2 ∧
    (addCommand cl n c1).commands.filter (fun p => p.1 == n) = [(n, c1)] ∧
    addScope (addScope cl n) n = addScope cl n ∧
    lookupScope (addScope cl n) n =
      some ((lookupScope cl n).getD emptyCommandList) ∧
    ((lookupScope cl n).isSome = true → addScope cl n = cl) := by
  refine ⟨?_, ?_, ?_, ?_, ?_⟩
  · cases cl with
    | node cmds scopes =>
      simp [addCommand, CommandListT.commands, CommandListT.scopes,
        List.filter_append, List.filter_filter, Bool.and_self]
  · cases cl with
    | node cmds scopes =>
      simp [addCommand, CommandListT.commands, CommandListT.scopes,
        List.filter_append, List.filter_filter]
  · cases hl : lookupScope cl n with
    | some s =>
      have e1 : addScope cl n = cl := by simp [addScope, hl]
      rw [e1, e1]
    | none =>
      have e1 : addScope cl n =
          .node cl.commands (cl.scopes ++ [(n, emptyCommandList)]) := by
        simp [addScope, hl]
      have e2 : lookupScope (addScope cl n) n = some emptyCommandList := by
        rw [e1]
        exact lookupScope_append_fresh cl n emptyCommandList hl
      exact addScope_present (addScope cl n) n (by rw [e2]; rfl)
  · cases hl : lookupScope cl n with
    | some s =>
      have e1 : addScope cl n = cl := by simp [addScope, hl]
      rw [e1, hl]
      rfl
    | none =>
      have e1 : addScope cl n =
          .node cl.commands (cl.scopes ++ [(n, emptyCommandList)]) := by
        simp [addScope, hl]
      rw [e1, lookupScope_append_fresh cl n emptyCommandList hl]
      rfl
  · exact addScope_present cl n

/-- C9 witness: registering the scope `class` twice on the empty tree
equals registering it once, and re-adding a scope present in the result
leaves the tree unchanged. -/
theorem registration_idempotent_witness :
    addScope (addScope emptyCommandList "class") "class" =
        addScope emptyCommandList "class" ∧
      addScope (addScope emptyCommandList "class") "class" =
        addScope emptyCommandList "class" :=
  ⟨(registration_overwrites_and_is_idempotent emptyCommandList "class"
      ⟨[]⟩ ⟨[]⟩).2.2.1,
    (registration_overwrites_and_is_idempotent
      (addScope emptyCommandList "class") "class" ⟨[]⟩ ⟨[]⟩).2.2.2.2 rfl⟩
